import Mathlib

/-!
# VisionGuard motion-detection core: a shallow embedding

This file embeds the motion-detection pipeline of
`src/services/video_analyzer.py` (class `VideoAnalyzer` and its result type
`VideoAnalysisResult`) and proves the testable properties stated in the
design document about it.

Modelling conventions:

* A preprocessed (grayscale, uint8) image is a `Frame := List (List Nat)`,
  row-major, every pixel in `0..255` where that matters (stated as a
  hypothesis, since `uint8` guarantees it in the source).
* Raw decoded frames are kept abstract (a type parameter `R`); the
  preprocessing stage `_preprocess_frame` (resize, BGR→gray, Gaussian blur)
  is a pure external-library computation, so it enters the model as an
  arbitrary function `pre : R → Frame`.  Every theorem below holds for every
  such function, hence in particular for the real one.
* Python `float` arithmetic is modelled with `ℚ`; Python `%` on integers is
  floor-mod, i.e. `Int.fmod`.
* `cap.read()` is modelled by a list of read outcomes `List (Option R)`:
  `some f` is a successful read, `none` is `ret == False` (which OpenCV
  returns both at end-of-stream and on a mid-stream decode failure); the
  `while` loop consumes reads up to the first `none`.
* The wall clock enters `analyze` as the input `elapsed` (the value of
  `time.time() - start_time`), and the possibility that the processing block
  raises an exception enters as the input `raised : Option String` (the
  exception text); `analyze` mirrors the `try/except/finally` structure.
-/

namespace VisionGuard

/-- A grayscale image: rows of pixel intensities (uint8 values in the code). -/
abbrev Frame := List (List Nat)

/-- `cv2.absdiff`: element-wise absolute difference of two images
(`|x - y|`, exact on uint8 inputs of equal shape). -/
def absdiff (a b : Frame) : Frame :=
  List.zipWith (List.zipWith (fun x y => max x y - min x y)) a b

/-- `cv2.threshold(.., t, maxval, cv2.THRESH_BINARY)`: a pixel strictly above
`t` becomes `maxval`, any other pixel becomes `0`. -/
def thresholdBin (t maxval : Nat) (f : Frame) : Frame :=
  f.map (List.map (fun x => if t < x then maxval else 0))

/-- Pixel lookup with out-of-range giving `0`; used to express dilation
(for `cv2.dilate` the border contributes `-inf` to the max, and on
nonnegative pixels a `0` contribution is equivalent). -/
def pixAt (f : Frame) (i j : Int) : Nat :=
  if i < 0 ∨ j < 0 then 0 else (f.getD i.toNat []).getD j.toNat 0

/-- Offsets of the 5×5 structuring element `np.ones((5, 5))` around a pixel. -/
def dilOffsets : List Int := [-2, -1, 0, 1, 2]

/-- One output pixel of dilation: the maximum over the 5×5 window. -/
def dilPix (f : Frame) (i j : Nat) : Nat :=
  dilOffsets.foldl
    (fun m di =>
      dilOffsets.foldl (fun m dj => max m (pixAt f ((i : Int) + di) ((j : Int) + dj))) m)
    0

/-- `cv2.dilate(f, np.ones((5, 5)), iterations=1)`: same shape as `f`, each
pixel replaced by the maximum over its 5×5 neighbourhood. -/
def dilateOnce (f : Frame) : Frame :=
  (List.range f.length).map
    (fun i => (List.range ((f.getD i []).length)).map (fun j => dilPix f i j))

/-- `cv2.dilate(f, kernel, iterations=2)`. -/
def dilate2 (f : Frame) : Frame := dilateOnce (dilateOnce f)

/-- `dilated.size`: the number of pixels of an image. -/
def pixelCount (f : Frame) : Nat := (f.map List.length).sum

/-- `np.count_nonzero`. -/
def countNonzero (f : Frame) : Nat :=
  (f.map (fun row => row.countP (fun x => decide (x ≠ 0)))).sum

/-- The total of all pixel values, so that `np.mean f = pixelSum f / pixelCount f`. -/
def pixelSum (f : Frame) : Nat := (f.map List.sum).sum

/-- The configuration fields set by `VideoAnalyzer.__init__`. -/
structure AnalyzerConfig where
  frame_sample_rate : Int
  motion_threshold : ℚ
  processing_width : Int
  processing_height : Int
deriving DecidableEq

/-- Python `x or default` applied to an `Optional[int]` argument: `None` and
`0` fall back to the default, everything else is kept. -/
def pyOrInt (x : Option Int) (d : Int) : Int :=
  match x with
  | none => d
  | some v => if v = 0 then d else v

/-- Python `x or default` applied to an `Optional[float]` argument. -/
def pyOrRat (x : Option ℚ) (d : ℚ) : ℚ :=
  match x with
  | none => d
  | some v => if v = 0 then d else v

/-- `VideoAnalyzer.__init__` with the default `settings` values
(`FRAME_SAMPLE_RATE = 5`, `MOTION_THRESHOLD = 0.02`,
`PROCESSING_WIDTH = 640`, `PROCESSING_HEIGHT = 480`).  It stores the four
arguments through Python `or`-defaulting and performs no validation. -/
def mkVideoAnalyzer (frame_sample_rate : Option Int) (motion_threshold : Option ℚ)
    (processing_width : Option Int) (processing_height : Option Int) : AnalyzerConfig :=
  { frame_sample_rate := pyOrInt frame_sample_rate 5
    motion_threshold := pyOrRat motion_threshold (2 / 100)
    processing_width := pyOrInt processing_width 640
    processing_height := pyOrInt processing_height 480 }

/-- `VideoAnalyzer._detect_motion`: absolute difference, binarization at 25,
5×5 dilation twice, change fraction vs. `motion_threshold`, and the mean
pre-binarization difference normalized by 255. -/
def detectMotion (cfg : AnalyzerConfig) (prev_frame curr_frame : Frame) : Bool × ℚ :=
  let frame_diff := absdiff prev_frame curr_frame
  let thresh := thresholdBin 25 255 frame_diff
  let dilated := dilate2 thresh
  let total_pixels := pixelCount dilated
  let changed_pixels := countNonzero dilated
  let change_percentage : ℚ := (changed_pixels : ℚ) / (total_pixels : ℚ)
  let motion_intensity : ℚ := (pixelSum frame_diff : ℚ) / (pixelCount frame_diff : ℚ) / 255
  (decide (change_percentage > cfg.motion_threshold), motion_intensity)

/-- The mutable locals of the `while` loop of `VideoAnalyzer._process_video`. -/
structure LoopState where
  frame_count : Nat
  frames_analyzed : Nat
  motion_frames : Nat
  prev_frame : Option Frame
  total_motion_intensity : ℚ
deriving DecidableEq

/-- The locals as initialized before the loop. -/
def initState : LoopState :=
  { frame_count := 0
    frames_analyzed := 0
    motion_frames := 0
    prev_frame := none
    total_motion_intensity := 0 }

/-- One iteration of the loop body of `_process_video` on a successfully read
frame: count it, skip it unless its 1-based ordinal is a multiple of
`frame_sample_rate` (Python `%` is `Int.fmod`), otherwise preprocess it and,
when a previous analyzed frame exists, run `_detect_motion` against it. -/
def stepFrame {R : Type} (cfg : AnalyzerConfig) (pre : R → Frame)
    (s : LoopState) (frame : R) : LoopState :=
  if Int.fmod ((s.frame_count : Int) + 1) cfg.frame_sample_rate ≠ 0 then
    { s with frame_count := s.frame_count + 1 }
  else
    match s.prev_frame with
    | none =>
        { frame_count := s.frame_count + 1
          frames_analyzed := s.frames_analyzed + 1
          motion_frames := s.motion_frames
          prev_frame := some (pre frame)
          total_motion_intensity := s.total_motion_intensity }
    | some q =>
        if (detectMotion cfg q (pre frame)).1 then
          { frame_count := s.frame_count + 1
            frames_analyzed := s.frames_analyzed + 1
            motion_frames := s.motion_frames + 1
            prev_frame := some (pre frame)
            total_motion_intensity := s.total_motion_intensity + (detectMotion cfg q (pre frame)).2 }
        else
          { frame_count := s.frame_count + 1
            frames_analyzed := s.frames_analyzed + 1
            motion_frames := s.motion_frames
            prev_frame := some (pre frame)
            total_motion_intensity := s.total_motion_intensity }

/-- The whole `while` loop of `_process_video` over the decoded frames. -/
def runLoop {R : Type} (cfg : AnalyzerConfig) (pre : R → Frame) (frames : List R) : LoopState :=
  frames.foldl (stepFrame cfg pre) initState

/-- The fields of `VideoAnalysisResult`. -/
structure VideoAnalysisResult where
  motion_detected : Bool
  frames_analyzed : Nat
  processing_time : ℚ
  total_frames : Int
  motion_percentage : ℚ
  avg_motion_intensity : ℚ
deriving DecidableEq

/-- The aggregation after the loop of `_process_video`:
`motion_percentage = motion_frames / frames_analyzed * 100` guarded by
`frames_analyzed > 0`, `avg_motion_intensity` guarded by `motion_frames > 0`,
and `has_motion = motion_percentage > 10.0`. -/
def finalize (total_frames : Int) (s : LoopState) : VideoAnalysisResult :=
  let motion_percentage : ℚ :=
    if 0 < s.frames_analyzed then (s.motion_frames : ℚ) / (s.frames_analyzed : ℚ) * 100 else 0
  let avg_motion_intensity : ℚ :=
    if 0 < s.motion_frames then s.total_motion_intensity / (s.motion_frames : ℚ) else 0
  { motion_detected := decide (motion_percentage > 10)
    frames_analyzed := s.frames_analyzed
    processing_time := 0
    total_frames := total_frames
    motion_percentage := motion_percentage
    avg_motion_intensity := avg_motion_intensity }

/-- `VideoAnalyzer._process_video`: `total_frames` is read from container
metadata (`cap.get(cv2.CAP_PROP_FRAME_COUNT)`), independently of how many
frames are actually decoded; then the loop and the aggregation run. -/
def processVideo {R : Type} (cfg : AnalyzerConfig) (pre : R → Frame)
    (total_frames : Int) (frames : List R) : VideoAnalysisResult :=
  finalize total_frames (runLoop cfg pre frames)

/-- The frames the `while` loop actually consumes: `cap.read()` outcomes up
to (excluding) the first `ret == False`, whatever caused it. -/
def readFrames {R : Type} : List (Option R) → List R
  | [] => []
  | none :: _ => []
  | some f :: rest => f :: readFrames rest

/-- What a call of `VideoAnalyzer.analyze` can produce for its caller. -/
inductive AnalyzeOutcome where
  | ok (result : VideoAnalysisResult)
  | invalidVideoError (msg : String)
  | videoProcessingError (msg : String)
deriving DecidableEq

/-- `VideoAnalyzer.analyze`: raise `InvalidVideoError` when the capture does
not open; otherwise run `_process_video` on the readable frames, stamping
`processing_time` with the elapsed wall-clock time, and wrap any exception
`e` raised inside the `try` block as
`VideoProcessingError("Failed to process video: " + e)`. -/
def analyze {R : Type} (cfg : AnalyzerConfig) (pre : R → Frame) (opened : Bool)
    (total_frames : Int) (reads : List (Option R)) (raised : Option String)
    (elapsed : ℚ) : AnalyzeOutcome :=
  if opened = false then
    .invalidVideoError "Cannot open video file"
  else
    match raised with
    | some e => .videoProcessingError ("Failed to process video: " ++ e)
    | none =>
        let result := processVideo cfg pre total_frames (readFrames reads)
        .ok { result with processing_time := elapsed }

/-! ## Characterizations of the loop used by the theorems -/

/-- The sublist of elements whose 1-based ordinal, counted from `c + 1`, is a
multiple of `stride` in the Python-modulo sense — exactly the frames the loop
retains for analysis. -/
def selectIdx {R : Type} (stride : Int) : Nat → List R → List R
  | _, [] => []
  | c, f :: rest =>
      if Int.fmod ((c : Int) + 1) stride = 0 then f :: selectIdx stride (c + 1) rest
      else selectIdx stride (c + 1) rest

/-- The preprocessed frames the run compares: the retained frames in order. -/
def analyzedFrames {R : Type} (cfg : AnalyzerConfig) (pre : R → Frame)
    (frames : List R) : List Frame :=
  (selectIdx cfg.frame_sample_rate 0 frames).map pre

/-- The boolean verdict of `_detect_motion` on one comparison. -/
def motionFlag (cfg : AnalyzerConfig) (a b : Frame) : Bool :=
  (detectMotion cfg a b).1

/-- The number of motion-flagged comparisons when the last frame seen was `q`
and the list continues as given. -/
def motionCountFrom (cfg : AnalyzerConfig) : Frame → List Frame → Nat
  | _, [] => 0
  | q, p :: rest =>
      (if motionFlag cfg q p then 1 else 0) + motionCountFrom cfg p rest

/-- The number of motion-flagged comparisons among consecutive pairs of a
list of analyzed frames (the first frame has no predecessor). -/
def motionCount (cfg : AnalyzerConfig) : List Frame → Nat
  | [] => 0
  | p :: rest => motionCountFrom cfg p rest

/-- The total of `_detect_motion` intensities over motion-flagged
comparisons, continuing from last frame `q`. -/
def intensitySumFrom (cfg : AnalyzerConfig) : Frame → List Frame → ℚ
  | _, [] => 0
  | q, p :: rest =>
      (if motionFlag cfg q p then (detectMotion cfg q p).2 else 0) + intensitySumFrom cfg p rest

/-- The total of `_detect_motion` intensities over the motion-flagged
consecutive pairs of a list of analyzed frames. -/
def intensitySum (cfg : AnalyzerConfig) : List Frame → ℚ
  | [] => 0
  | p :: rest => intensitySumFrom cfg p rest

/-- The consecutive pairs (predecessor, successor) of a list. -/
def framePairs (l : List Frame) : List (Frame × Frame) := l.zip l.tail

/-- An image whose pixels are all zero (in the membership sense). -/
def allZero (f : Frame) : Prop := ∀ row ∈ f, ∀ x ∈ row, x = 0

/-- An image whose pixels are all at most `b`. -/
def pixelsLE (b : Nat) (f : Frame) : Prop := ∀ row ∈ f, ∀ x ∈ row, x ≤ b

/-- An `AnalyzeOutcome` with the wall-clock-dependent field erased. -/
def eraseTime : AnalyzeOutcome → AnalyzeOutcome
  | .ok r => .ok { r with processing_time := 0 }
  | o => o

/-- The motion-flagged comparisons still to come, given the frame currently
held in `prev_frame` (if any). -/
def pendingCount (cfg : AnalyzerConfig) (prev : Option Frame) (l : List Frame) : Nat :=
  match prev with
  | none => motionCount cfg l
  | some q => motionCountFrom cfg q l

/-- The flagged-comparison intensity total still to come, given the frame
currently held in `prev_frame` (if any). -/
def pendingSum (cfg : AnalyzerConfig) (prev : Option Frame) (l : List Frame) : ℚ :=
  match prev with
  | none => intensitySum cfg l
  | some q => intensitySumFrom cfg q l

/-! ## Lemmas about frame selection -/

theorem pendingCount_nil (cfg : AnalyzerConfig) (prev : Option Frame) :
    pendingCount cfg prev [] = 0 := by
  cases prev <;> rfl

theorem pendingSum_nil (cfg : AnalyzerConfig) (prev : Option Frame) :
    pendingSum cfg prev [] = 0 := by
  cases prev <;> rfl

/-- For a positive stride, the Python test `n % stride == 0` on a nonnegative
`n` is divisibility by `stride.toNat`. -/
theorem fmod_natCast_eq_zero_iff (stride : Int) (hs : 0 < stride) (n : Nat) :
    Int.fmod (n : Int) stride = 0 ↔ n % stride.toNat = 0 := by
  have h1 : ((stride.toNat : Nat) : Int) = stride := Int.toNat_of_nonneg hs.le
  rw [← h1, ← Int.ofNat_fmod]
  exact_mod_cast Int.natCast_eq_zero

theorem selectIdx_length_le {R : Type} (stride : Int) :
    ∀ (l : List R) (c : Nat), (selectIdx stride c l).length ≤ l.length := by
  intro l
  induction l with
  | nil => intro c; simp [selectIdx]
  | cons f rest ih =>
      intro c
      by_cases h : Int.fmod ((c : Int) + 1) stride = 0
      · simpa [selectIdx, h] using ih (c + 1)
      · simp only [selectIdx, if_neg h, List.length_cons]
        exact (ih (c + 1)).trans (Nat.le_succ _)

/-- The number of retained frames: multiples of the stride in the window
`(c, c + length]`. -/
theorem selectIdx_length {R : Type} (stride : Int) (hs : 0 < stride) :
    ∀ (l : List R) (c : Nat),
      (selectIdx stride c l).length = (c + l.length) / stride.toNat - c / stride.toNat := by
  intro l
  induction l with
  | nil => intro c; simp [selectIdx]
  | cons f rest ih =>
      intro c
      have hcast : ((c : Int) + 1) = ((c + 1 : Nat) : Int) := by push_cast; ring
      have hmono : (c + 1) / stride.toNat ≤ (c + 1 + rest.length) / stride.toNat :=
        Nat.div_le_div_right (Nat.le_add_right _ _)
      have harr : c + (rest.length + 1) = c + 1 + rest.length := by omega
      by_cases h : Int.fmod ((c : Int) + 1) stride = 0
      · have hdvd : stride.toNat ∣ c + 1 := by
          have := (fmod_natCast_eq_zero_iff stride hs (c + 1)).1 (by rwa [← hcast])
          exact Nat.dvd_of_mod_eq_zero this
        have hsucc : (c + 1) / stride.toNat = c / stride.toNat + 1 := by
          rw [Nat.succ_div, if_pos hdvd]
        simp only [selectIdx, if_pos h, List.length_cons, ih (c + 1), harr]
        omega
      · have hpos : 0 < stride.toNat := by omega
        have hndvd : ¬ stride.toNat ∣ c + 1 := by
          intro hd
          apply h
          rw [hcast]
          exact (fmod_natCast_eq_zero_iff stride hs (c + 1)).2 (Nat.mod_eq_zero_of_dvd hd)
        have hsucc : (c + 1) / stride.toNat = c / stride.toNat := by
          rw [Nat.succ_div, if_neg hndvd]
          omega
        simp only [selectIdx, if_neg h, List.length_cons, ih (c + 1), harr]
        omega

/-- Retention keeps exactly the elements whose 1-based ordinal is a multiple
of the stride. -/
theorem selectIdx_enumFrom {R : Type} (stride : Int) (hs : 0 < stride) :
    ∀ (l : List R) (c : Nat),
      selectIdx stride c l =
        ((List.enumFrom c l).filter
          (fun p => decide ((p.1 + 1) % stride.toNat = 0))).map Prod.snd := by
  intro l
  induction l with
  | nil => intro c; simp [selectIdx]
  | cons f rest ih =>
      intro c
      have hcast : ((c : Int) + 1) = ((c + 1 : Nat) : Int) := by push_cast; ring
      by_cases h : Int.fmod ((c : Int) + 1) stride = 0
      · have hmod : (c + 1) % stride.toNat = 0 :=
          (fmod_natCast_eq_zero_iff stride hs (c + 1)).1 (by rwa [← hcast])
        simp [selectIdx, h, List.enumFrom, List.filter, hmod, ih (c + 1)]
      · have hmod : ¬ (c + 1) % stride.toNat = 0 := by
          intro hm
          exact h (by rw [hcast]; exact (fmod_natCast_eq_zero_iff stride hs (c + 1)).2 hm)
        simp [selectIdx, h, List.enumFrom, List.filter, hmod, ih (c + 1)]

theorem selectIdx_all_eq {R : Type} (stride : Int) (a : R) :
    ∀ (l : List R) (c : Nat), (∀ x ∈ l, x = a) →
      ∀ x ∈ selectIdx stride c l, x = a := by
  intro l
  induction l with
  | nil => intro c _; simp [selectIdx]
  | cons f rest ih =>
      intro c hl x hx
      by_cases h : Int.fmod ((c : Int) + 1) stride = 0
      · simp only [selectIdx, if_pos h, List.mem_cons] at hx
        rcases hx with rfl | hx
        · exact hl x (List.mem_cons_self _ _)
        · exact ih (c + 1) (fun y hy => hl y (List.mem_cons_of_mem _ hy)) x hx
      · simp only [selectIdx, if_neg h] at hx
        exact ih (c + 1) (fun y hy => hl y (List.mem_cons_of_mem _ hy)) x hx

/-! ## The loop computes the declarative per-comparison statistics -/

/-- The accumulator invariant of the `while` loop of `_process_video`:
starting from any state, the loop counts every decoded frame, analyzes
exactly the retained ones, and accumulates the flagged-comparison count and
intensity total of the retained (preprocessed) frame sequence. -/
theorem foldl_step_spec {R : Type} (cfg : AnalyzerConfig) (pre : R → Frame) :
    ∀ (frames : List R) (s : LoopState),
      (frames.foldl (stepFrame cfg pre) s).frame_count = s.frame_count + frames.length ∧
      (frames.foldl (stepFrame cfg pre) s).frames_analyzed =
        s.frames_analyzed + (selectIdx cfg.frame_sample_rate s.frame_count frames).length ∧
      (frames.foldl (stepFrame cfg pre) s).motion_frames =
        s.motion_frames +
          pendingCount cfg s.prev_frame
            ((selectIdx cfg.frame_sample_rate s.frame_count frames).map pre) ∧
      (frames.foldl (stepFrame cfg pre) s).total_motion_intensity =
        s.total_motion_intensity +
          pendingSum cfg s.prev_frame
            ((selectIdx cfg.frame_sample_rate s.frame_count frames).map pre) := by
  intro frames
  induction frames with
  | nil =>
      intro s
      simp [selectIdx, pendingCount_nil, pendingSum_nil]
  | cons f rest ih =>
      intro s
      by_cases h : Int.fmod ((s.frame_count : Int) + 1) cfg.frame_sample_rate = 0
      · rcases hq : s.prev_frame with _ | q
        · have hstep : stepFrame cfg pre s f =
              { frame_count := s.frame_count + 1
                frames_analyzed := s.frames_analyzed + 1
                motion_frames := s.motion_frames
                prev_frame := some (pre f)
                total_motion_intensity := s.total_motion_intensity } := by
            simp [stepFrame, h, hq]
          obtain ⟨ih1, ih2, ih3, ih4⟩ := ih (stepFrame cfg pre s f)
          rw [hstep] at ih1 ih2 ih3 ih4
          dsimp only at ih1 ih2 ih3 ih4
          refine ⟨?_, ?_, ?_, ?_⟩
          · rw [List.foldl_cons, hstep, ih1]
            simp only [List.length_cons]
            omega
          · rw [List.foldl_cons, hstep, ih2]
            simp only [selectIdx, if_pos h, List.length_cons]
            omega
          · rw [List.foldl_cons, hstep, ih3]
            simp only [selectIdx, if_pos h, List.map_cons, pendingCount, hq, motionCount]
          · rw [List.foldl_cons, hstep, ih4]
            simp only [selectIdx, if_pos h, List.map_cons, pendingSum, hq, intensitySum]
        · by_cases hm : (detectMotion cfg q (pre f)).1
          · have hstep : stepFrame cfg pre s f =
                { frame_count := s.frame_count + 1
                  frames_analyzed := s.frames_analyzed + 1
                  motion_frames := s.motion_frames + 1
                  prev_frame := some (pre f)
                  total_motion_intensity :=
                    s.total_motion_intensity + (detectMotion cfg q (pre f)).2 } := by
              simp [stepFrame, h, hq, hm]
            obtain ⟨ih1, ih2, ih3, ih4⟩ := ih (stepFrame cfg pre s f)
            rw [hstep] at ih1 ih2 ih3 ih4
            dsimp only at ih1 ih2 ih3 ih4
            refine ⟨?_, ?_, ?_, ?_⟩
            · rw [List.foldl_cons, hstep, ih1]
              simp only [List.length_cons]
              omega
            · rw [List.foldl_cons, hstep, ih2]
              simp only [selectIdx, if_pos h, List.length_cons]
              omega
            · rw [List.foldl_cons, hstep, ih3]
              simp only [selectIdx, if_pos h, List.map_cons, pendingCount, hq,
                motionCountFrom, motionFlag, hm, if_true]
              omega
            · rw [List.foldl_cons, hstep, ih4]
              simp only [selectIdx, if_pos h, List.map_cons, pendingSum, hq,
                intensitySumFrom, motionFlag, hm, if_true]
              ring
          · have hstep : stepFrame cfg pre s f =
                { frame_count := s.frame_count + 1
                  frames_analyzed := s.frames_analyzed + 1
                  motion_frames := s.motion_frames
                  prev_frame := some (pre f)
                  total_motion_intensity := s.total_motion_intensity } := by
              simp [stepFrame, h, hq, hm]
            obtain ⟨ih1, ih2, ih3, ih4⟩ := ih (stepFrame cfg pre s f)
            rw [hstep] at ih1 ih2 ih3 ih4
            dsimp only at ih1 ih2 ih3 ih4
            refine ⟨?_, ?_, ?_, ?_⟩
            · rw [List.foldl_cons, hstep, ih1]
              simp only [List.length_cons]
              omega
            · rw [List.foldl_cons, hstep, ih2]
              simp only [selectIdx, if_pos h, List.length_cons]
              omega
            · rw [List.foldl_cons, hstep, ih3]
              simp only [selectIdx, if_pos h, List.map_cons, pendingCount, hq,
                motionCountFrom, motionFlag, hm]
              simp [hm]
            · rw [List.foldl_cons, hstep, ih4]
              simp only [selectIdx, if_pos h, List.map_cons, pendingSum, hq,
                intensitySumFrom, motionFlag, hm]
              simp [hm]
      · have hstep : stepFrame cfg pre s f = { s with frame_count := s.frame_count + 1 } := by
          simp [stepFrame, h]
        obtain ⟨ih1, ih2, ih3, ih4⟩ := ih (stepFrame cfg pre s f)
        rw [hstep] at ih1 ih2 ih3 ih4
        dsimp only at ih1 ih2 ih3 ih4
        refine ⟨?_, ?_, ?_, ?_⟩
        · rw [List.foldl_cons, hstep, ih1]
          simp only [List.length_cons]
          omega
        · rw [List.foldl_cons, hstep, ih2]
          simp only [selectIdx, if_neg h]
        · rw [List.foldl_cons, hstep, ih3]
          simp only [selectIdx, if_neg h]
        · rw [List.foldl_cons, hstep, ih4]
          simp only [selectIdx, if_neg h]

/-- `frames_analyzed` after the loop is the number of retained frames. -/
theorem runLoop_frames_analyzed {R : Type} (cfg : AnalyzerConfig) (pre : R → Frame)
    (frames : List R) :
    (runLoop cfg pre frames).frames_analyzed = (analyzedFrames cfg pre frames).length := by
  have h := (foldl_step_spec cfg pre frames initState).2.1
  simpa [runLoop, initState, analyzedFrames] using h

/-- `motion_frames` after the loop is the number of motion-flagged
consecutive comparisons among the analyzed frames. -/
theorem runLoop_motion_frames {R : Type} (cfg : AnalyzerConfig) (pre : R → Frame)
    (frames : List R) :
    (runLoop cfg pre frames).motion_frames = motionCount cfg (analyzedFrames cfg pre frames) := by
  have h := (foldl_step_spec cfg pre frames initState).2.2.1
  simpa [runLoop, initState, analyzedFrames, pendingCount] using h

/-- `total_motion_intensity` after the loop is the intensity total over the
motion-flagged consecutive comparisons among the analyzed frames. -/
theorem runLoop_total_intensity {R : Type} (cfg : AnalyzerConfig) (pre : R → Frame)
    (frames : List R) :
    (runLoop cfg pre frames).total_motion_intensity =
      intensitySum cfg (analyzedFrames cfg pre frames) := by
  have h := (foldl_step_spec cfg pre frames initState).2.2.2
  simpa [runLoop, initState, analyzedFrames, pendingSum] using h

/-! ## Image-operation lemmas -/

theorem zipWith_self {α β : Type} (f : α → α → β) :
    ∀ l : List α, List.zipWith f l l = l.map (fun a => f a a) := by
  intro l
  induction l with
  | nil => rfl
  | cons a t ih => simp [List.zipWith, ih]

theorem getD_mem_or_default {α : Type} :
    ∀ (l : List α) (n : Nat) (d : α), l.getD n d ∈ l ∨ l.getD n d = d := by
  intro l
  induction l with
  | nil => intro n d; right; cases n <;> rfl
  | cons a t ih =>
      intro n d
      cases n with
      | zero => left; exact List.mem_cons_self _ _
      | succ m =>
          rcases ih m d with hmem | hdef
          · left; exact List.mem_cons_of_mem _ hmem
          · right; exact hdef

theorem absdiff_self_allZero (p : Frame) : allZero (absdiff p p) := by
  intro row hrow x hx
  rw [absdiff, zipWith_self] at hrow
  rcases List.mem_map.1 hrow with ⟨r, _, rfl⟩
  rw [zipWith_self] at hx
  rcases List.mem_map.1 hx with ⟨a, _, rfl⟩
  simp

theorem thresholdBin_allZero (t maxval : Nat) (f : Frame) (h : allZero f) :
    allZero (thresholdBin t maxval f) := by
  intro row hrow x hx
  rcases List.mem_map.1 hrow with ⟨r, hr, rfl⟩
  rcases List.mem_map.1 hx with ⟨a, ha, rfl⟩
  rw [h r hr a ha]
  simp

theorem pixAt_allZero (f : Frame) (h : allZero f) (i j : Int) : pixAt f i j = 0 := by
  rw [pixAt]
  split
  · rfl
  · rcases getD_mem_or_default f i.toNat [] with hmem | hdef
    · rcases getD_mem_or_default (f.getD i.toNat []) j.toNat 0 with hmem2 | hdef2
      · exact h _ hmem _ hmem2
      · exact hdef2
    · rw [hdef]
      cases j.toNat <;> rfl

theorem dilPix_allZero (f : Frame) (h : allZero f) (i j : Nat) : dilPix f i j = 0 := by
  have hz : ∀ a b : Int, pixAt f a b = 0 := fun a b => pixAt_allZero f h a b
  simp [dilPix, dilOffsets, hz]

theorem dilateOnce_allZero (f : Frame) (h : allZero f) : allZero (dilateOnce f) := by
  intro row hrow x hx
  rcases List.mem_map.1 hrow with ⟨i, _, rfl⟩
  rcases List.mem_map.1 hx with ⟨j, _, rfl⟩
  exact dilPix_allZero f h i j

theorem countNonzero_allZero (f : Frame) (h : allZero f) : countNonzero f = 0 := by
  rw [countNonzero]
  apply List.sum_eq_zero
  intro n hn
  rcases List.mem_map.1 hn with ⟨row, hrow, rfl⟩
  rw [List.countP_eq_zero]
  intro a ha
  simp [h row hrow a ha]

/-- Comparing a frame with itself never flags motion (for a nonnegative
threshold): the difference image is identically zero and stays zero through
binarization and both dilation passes. -/
theorem motionFlag_self (cfg : AnalyzerConfig) (h : 0 ≤ cfg.motion_threshold) (p : Frame) :
    motionFlag cfg p p = false := by
  have hz : allZero (dilate2 (thresholdBin 25 255 (absdiff p p))) :=
    dilateOnce_allZero _ (dilateOnce_allZero _ (thresholdBin_allZero _ _ _ (absdiff_self_allZero p)))
  have hcn : countNonzero (dilate2 (thresholdBin 25 255 (absdiff p p))) = 0 :=
    countNonzero_allZero _ hz
  rw [motionFlag, detectMotion]
  simp only [hcn, Nat.cast_zero, zero_div]
  rw [decide_eq_false_iff_not]
  exact not_lt.2 h

theorem zipWith_forall_mem {α β γ : Type} {f : α → β → γ}
    {P : α → Prop} {Q : β → Prop} {S : γ → Prop}
    (hf : ∀ x y, P x → Q y → S (f x y)) :
    ∀ (a : List α) (b : List β), (∀ x ∈ a, P x) → (∀ y ∈ b, Q y) →
      ∀ z ∈ List.zipWith f a b, S z := by
  intro a
  induction a with
  | nil => intro b _ _ z hz; simp at hz
  | cons x xs ih =>
      intro b ha hb z hz
      cases b with
      | nil => simp at hz
      | cons y ys =>
          simp only [List.zipWith, List.mem_cons] at hz
          rcases hz with rfl | hz
          · exact hf x y (ha x (List.mem_cons_self _ _)) (hb y (List.mem_cons_self _ _))
          · exact ih ys (fun u hu => ha u (List.mem_cons_of_mem _ hu))
              (fun v hv => hb v (List.mem_cons_of_mem _ hv)) z hz

theorem absdiff_pixelsLE {q p : Frame} (hq : pixelsLE 255 q) (hp : pixelsLE 255 p) :
    pixelsLE 255 (absdiff q p) := by
  intro row hrow
  refine zipWith_forall_mem (P := fun r => ∀ x ∈ r, x ≤ 255) (Q := fun r => ∀ x ∈ r, x ≤ 255)
    (S := fun r => ∀ x ∈ r, x ≤ 255) ?_ q p hq hp row hrow
  intro r1 r2 h1 h2
  refine zipWith_forall_mem (P := fun x => x ≤ 255) (Q := fun x => x ≤ 255)
    (S := fun x => x ≤ 255) ?_ r1 r2 h1 h2
  intro x y hx _
  calc max x y - min x y ≤ max x y := Nat.sub_le _ _
    _ ≤ 255 := max_le hx ‹y ≤ 255›

theorem pixelSum_le_of_pixelsLE {b : Nat} {f : Frame} (h : pixelsLE b f) :
    pixelSum f ≤ b * pixelCount f := by
  rw [pixelSum, pixelCount]
  calc (f.map List.sum).sum ≤ (f.map (fun row => b * row.length)).sum := by
        apply List.sum_le_sum
        intro row hrow
        have := List.sum_le_card_nsmul row b (h row hrow)
        simpa [Nat.smul_one_eq_cast, mul_comm] using this
    _ = b * (f.map List.length).sum := by
        rw [← List.sum_map_mul_left]

theorem detectMotion_intensity_nonneg (cfg : AnalyzerConfig) (q p : Frame) :
    0 ≤ (detectMotion cfg q p).2 := by
  rw [detectMotion]
  have h1 : (0 : ℚ) ≤ (pixelSum (absdiff q p) : ℚ) / (pixelCount (absdiff q p) : ℚ) :=
    div_nonneg (Nat.cast_nonneg _) (Nat.cast_nonneg _)
  exact div_nonneg h1 (by norm_num)

theorem detectMotion_intensity_le_one (cfg : AnalyzerConfig) {q p : Frame}
    (hq : pixelsLE 255 q) (hp : pixelsLE 255 p) : (detectMotion cfg q p).2 ≤ 1 := by
  rw [detectMotion]
  have hS : pixelSum (absdiff q p) ≤ 255 * pixelCount (absdiff q p) :=
    pixelSum_le_of_pixelsLE (absdiff_pixelsLE hq hp)
  by_cases hC : pixelCount (absdiff q p) = 0
  · rw [hC]
    norm_num
  · have hCpos : (0 : ℚ) < (pixelCount (absdiff q p) : ℚ) := by
      exact_mod_cast Nat.pos_of_ne_zero hC
    have hmean : (pixelSum (absdiff q p) : ℚ) / (pixelCount (absdiff q p) : ℚ) ≤ 255 := by
      rw [div_le_iff₀ hCpos]
      exact_mod_cast hS
    rw [div_le_one (by norm_num : (0 : ℚ) < 255)] at *
    exact hmean

/-- The accumulated intensity over flagged comparisons is nonnegative and at
most the number of flagged comparisons (each term lies in `[0, 1]`). -/
theorem intensitySumFrom_bounds (cfg : AnalyzerConfig) :
    ∀ (l : List Frame) (q : Frame), pixelsLE 255 q → (∀ f ∈ l, pixelsLE 255 f) →
      0 ≤ intensitySumFrom cfg q l ∧
        intensitySumFrom cfg q l ≤ (motionCountFrom cfg q l : ℚ) := by
  intro l
  induction l with
  | nil => intro q _ _; simp [intensitySumFrom, motionCountFrom]
  | cons p rest ih =>
      intro q hq hl
      have hp : pixelsLE 255 p := hl p (List.mem_cons_self _ _)
      obtain ⟨ihn, ihb⟩ := ih p hp (fun f hf => hl f (List.mem_cons_of_mem _ hf))
      constructor
      · rw [intensitySumFrom]
        apply add_nonneg _ ihn
        split
        · exact detectMotion_intensity_nonneg cfg q p
        · exact le_refl 0
      · rw [intensitySumFrom, motionCountFrom]
        push_cast
        apply add_le_add _ ihb
        split
        · exact detectMotion_intensity_le_one cfg hq hp
        · norm_num

theorem intensitySum_bounds (cfg : AnalyzerConfig) (l : List Frame)
    (h : ∀ f ∈ l, pixelsLE 255 f) :
    0 ≤ intensitySum cfg l ∧ intensitySum cfg l ≤ (motionCount cfg l : ℚ) := by
  cases l with
  | nil => simp [intensitySum, motionCount]
  | cons p rest =>
      rw [intensitySum, motionCount]
      exact intensitySumFrom_bounds cfg rest p (h p (List.mem_cons_self _ _))
        (fun f hf => h f (List.mem_cons_of_mem _ hf))

/-- When every consecutive comparison is flagged, the flag count is the
number of comparisons. -/
theorem motionCountFrom_all_flagged (cfg : AnalyzerConfig) :
    ∀ (l : List Frame) (q : Frame),
      (∀ pr ∈ framePairs (q :: l), motionFlag cfg pr.1 pr.2 = true) →
      motionCountFrom cfg q l = l.length := by
  intro l
  induction l with
  | nil => intro q _; rfl
  | cons p rest ih =>
      intro q hall
      have hqp : motionFlag cfg q p = true := by
        apply hall (q, p)
        simp [framePairs, List.zip]
      rw [motionCountFrom, if_pos hqp, ih p, List.length_cons]
      · omega
      · intro pr hpr
        apply hall pr
        simp only [framePairs] at hpr ⊢
        simpa [List.zip] using List.mem_cons_of_mem _ hpr

/-- When every element of the list is the same frame, no comparison is
flagged (for a nonnegative threshold). -/
theorem motionCountFrom_const (cfg : AnalyzerConfig) (h : 0 ≤ cfg.motion_threshold) (a : Frame) :
    ∀ l : List Frame, (∀ x ∈ l, x = a) → motionCountFrom cfg a l = 0 := by
  intro l
  induction l with
  | nil => intro _; rfl
  | cons p rest ih =>
      intro hl
      have hpa : p = a := hl p (List.mem_cons_self _ _)
      subst hpa
      rw [motionCountFrom, if_neg (by simp [motionFlag_self cfg h p]), ih]
      intro x hx
      exact hl x (List.mem_cons_of_mem _ hx)

theorem motionCount_const (cfg : AnalyzerConfig) (h : 0 ≤ cfg.motion_threshold) (a : Frame)
    (l : List Frame) (hl : ∀ x ∈ l, x = a) : motionCount cfg l = 0 := by
  cases l with
  | nil => rfl
  | cons p rest =>
      have hpa : p = a := hl p (List.mem_cons_self _ _)
      subst hpa
      rw [motionCount]
      exact motionCountFrom_const cfg h p rest
        (fun x hx => (hl x (List.mem_cons_of_mem _ hx)).trans rfl)

/-! ## Field-level characterizations of the produced result -/

theorem processVideo_frames_analyzed {R : Type} (cfg : AnalyzerConfig) (pre : R → Frame)
    (total : Int) (frames : List R) :
    (processVideo cfg pre total frames).frames_analyzed =
      (analyzedFrames cfg pre frames).length := by
  rw [processVideo, finalize]
  exact runLoop_frames_analyzed cfg pre frames

theorem processVideo_total_frames {R : Type} (cfg : AnalyzerConfig) (pre : R → Frame)
    (total : Int) (frames : List R) :
    (processVideo cfg pre total frames).total_frames = total := by
  rw [processVideo, finalize]

theorem processVideo_motion_percentage {R : Type} (cfg : AnalyzerConfig) (pre : R → Frame)
    (total : Int) (frames : List R) :
    (processVideo cfg pre total frames).motion_percentage =
      if 0 < (analyzedFrames cfg pre frames).length then
        (motionCount cfg (analyzedFrames cfg pre frames) : ℚ) /
          ((analyzedFrames cfg pre frames).length : ℚ) * 100
      else 0 := by
  rw [processVideo, finalize]
  dsimp only
  rw [runLoop_frames_analyzed, runLoop_motion_frames]

theorem processVideo_motion_detected {R : Type} (cfg : AnalyzerConfig) (pre : R → Frame)
    (total : Int) (frames : List R) :
    (processVideo cfg pre total frames).motion_detected =
      decide (10 < (processVideo cfg pre total frames).motion_percentage) := by
  rw [processVideo, finalize]

theorem processVideo_avg_intensity {R : Type} (cfg : AnalyzerConfig) (pre : R → Frame)
    (total : Int) (frames : List R) :
    (processVideo cfg pre total frames).avg_motion_intensity =
      if 0 < motionCount cfg (analyzedFrames cfg pre frames) then
        intensitySum cfg (analyzedFrames cfg pre frames) /
          (motionCount cfg (analyzedFrames cfg pre frames) : ℚ)
      else 0 := by
  rw [processVideo, finalize]
  dsimp only
  rw [runLoop_motion_frames, runLoop_total_intensity]

theorem processVideo_processing_time {R : Type} (cfg : AnalyzerConfig) (pre : R → Frame)
    (total : Int) (frames : List R) :
    (processVideo cfg pre total frames).processing_time = 0 := by
  rw [processVideo, finalize]

/-- A run whose reads all succeed consumes every frame. -/
theorem readFrames_map_some {R : Type} (l : List R) : readFrames (l.map some) = l := by
  induction l with
  | nil => rfl
  | cons f rest ih => simp [readFrames, ih]

/-- A failed read stops the loop: everything after it is never seen. -/
theorem readFrames_stops_at_none {R : Type} (good : List R) (rest : List (Option R)) :
    readFrames (good.map some ++ none :: rest) = good := by
  induction good with
  | nil => rfl
  | cons f t ih => simp [readFrames, ih]

/-- When the capture opens and no exception is raised, `analyze` returns the
`_process_video` result with `processing_time` stamped in. -/
theorem analyze_ok {R : Type} (cfg : AnalyzerConfig) (pre : R → Frame) (total : Int)
    (reads : List (Option R)) (elapsed : ℚ) :
    analyze cfg pre true total reads none elapsed =
      AnalyzeOutcome.ok
        { processVideo cfg pre total (readFrames reads) with processing_time := elapsed } := by
  rfl

set_option maxRecDepth 100000

/-! ## Concrete fixtures used by witnesses and counterexamples -/

/-- A 1×1 black preprocessed frame. -/
def frameA : Frame := [[0]]

/-- A 1×1 white preprocessed frame. -/
def frameB : Frame := [[255]]

/-- An analyzer constructed with `frame_sample_rate=1` and defaults otherwise. -/
def cfgStride1 : AnalyzerConfig := mkVideoAnalyzer (some 1) none none none

/-- An analyzer constructed with all defaults. -/
def cfgDefault : AnalyzerConfig := mkVideoAnalyzer none none none none

/-! ## The claims -/

/-- C1: for every completed run of `analyze`, `motion_percentage` is
`100 * (number of motion-flagged comparisons) / frames_analyzed` when
`frames_analyzed > 0` and `0` otherwise, and `motion_detected` holds exactly
when `motion_percentage > 10`. -/
theorem c1_final_aggregation {R : Type} (cfg : AnalyzerConfig) (pre : R → Frame)
    (opened : Bool) (total : Int) (reads : List (Option R)) (raised : Option String)
    (elapsed : ℚ) (r : VideoAnalysisResult)
    (h : analyze cfg pre opened total reads raised elapsed = AnalyzeOutcome.ok r) :
    r.motion_percentage =
      (if 0 < r.frames_analyzed then
        100 * (motionCount cfg (analyzedFrames cfg pre (readFrames reads)) : ℚ) /
          (r.frames_analyzed : ℚ)
      else 0) ∧
    (r.motion_detected = true ↔ 10 < r.motion_percentage) := by
  cases opened with
  | false => simp [analyze] at h
  | true =>
      cases raised with
      | some e => simp [analyze] at h
      | none =>
          rw [analyze_ok] at h
          injection h with h
          subst h
          have hfa := processVideo_frames_analyzed cfg pre total (readFrames reads)
          have hmp := processVideo_motion_percentage cfg pre total (readFrames reads)
          have hmd := processVideo_motion_detected cfg pre total (readFrames reads)
          dsimp only at hfa hmp hmd ⊢
          constructor
          · rw [hmp, hfa]
            split
            · ring
            · rfl
          · rw [hmd]
            exact decide_eq_true_iff

/-- Witness for C1 at a concrete two-frame run with stride 1. -/
theorem c1_final_aggregation_witness :
    analyze cfgStride1 id true 2 [some frameA, some frameB] none 0 =
      AnalyzeOutcome.ok
        { motion_detected := true, frames_analyzed := 2, processing_time := 0,
          total_frames := 2, motion_percentage := 50, avg_motion_intensity := 1 } ∧
    ((50 : ℚ) =
      (if 0 < (2 : Nat) then
        100 * (motionCount cfgStride1 (analyzedFrames cfgStride1 id
          (readFrames [some frameA, some frameB])) : ℚ) / ((2 : Nat) : ℚ)
      else 0) ∧
    ((true = true) ↔ (10 : ℚ) < 50)) := by
  constructor
  · with_unfolding_all decide
  · exact c1_final_aggregation cfgStride1 id true 2 [some frameA, some frameB] none 0
      { motion_detected := true, frames_analyzed := 2, processing_time := 0,
        total_frames := 2, motion_percentage := 50, avg_motion_intensity := 1 }
      (by with_unfolding_all decide)

/-- C2: with a positive stride, the run analyzes exactly the decoded frames
whose 1-based ordinal is an exact multiple of the stride, so
`frames_analyzed = floor(N / stride)`. -/
theorem c2_sampling {R : Type} (cfg : AnalyzerConfig) (pre : R → Frame)
    (total : Int) (frames : List R) (h : 0 < cfg.frame_sample_rate) :
    (processVideo cfg pre total frames).frames_analyzed =
      frames.length / cfg.frame_sample_rate.toNat ∧
    analyzedFrames cfg pre frames =
      ((frames.enum.filter
        (fun pr => decide ((pr.1 + 1) % cfg.frame_sample_rate.toNat = 0))).map
          Prod.snd).map pre := by
  constructor
  · rw [processVideo_frames_analyzed, analyzedFrames, List.length_map,
      selectIdx_length cfg.frame_sample_rate h frames 0]
    simp
  · rw [analyzedFrames, selectIdx_enumFrom cfg.frame_sample_rate h frames 0]
    rfl

/-- Witness for C2: 12 frames at stride 5 give `frames_analyzed = 12 / 5 = 2`
and the retained list is the frames at ordinals 5 and 10. -/
theorem c2_sampling_witness :
    (0 : Int) < cfgDefault.frame_sample_rate ∧
    ((processVideo cfgDefault (fun _ : Nat => ([] : Frame)) 90 (List.range 12)).frames_analyzed =
      (List.range 12).length / cfgDefault.frame_sample_rate.toNat ∧
    analyzedFrames cfgDefault (fun _ : Nat => ([] : Frame)) (List.range 12) =
      (((List.range 12).enum.filter
        (fun pr => decide ((pr.1 + 1) % cfgDefault.frame_sample_rate.toNat = 0))).map
          Prod.snd).map (fun _ : Nat => ([] : Frame))) := by
  constructor
  · with_unfolding_all decide
  · exact c2_sampling cfgDefault (fun _ : Nat => ([] : Frame)) 90 (List.range 12)
      (by with_unfolding_all decide)

/-- C3 counterexample: a stride-1 video of two frames whose single comparison
is motion-flagged (the premise of the claim), yet `motion_percentage` is 50,
not 100 — the first analyzed frame has no predecessor, so at most
`frames_analyzed - 1` comparisons exist and the percentage divides by
`frames_analyzed`. -/
theorem c3_all_motion_counterexample :
    motionFlag cfgStride1 frameA frameB = true ∧
    analyzedFrames cfgStride1 id [frameA, frameB] = [frameA, frameB] ∧
    (processVideo cfgStride1 id 2 [frameA, frameB]).motion_detected = true ∧
    (processVideo cfgStride1 id 2 [frameA, frameB]).motion_percentage ≠ 100 := by
  refine ⟨?_, ?_, ?_, ?_⟩ <;> with_unfolding_all decide

/-- C3 amended: when every consecutive comparison of analyzed frames is
motion-flagged and at least two frames are analyzed, the run reports
`motion_detected = True` and
`motion_percentage = (frames_analyzed - 1) / frames_analyzed * 100`
(100 itself is never reached, because the first analyzed frame produces no
comparison). -/
theorem c3_all_motion_amended {R : Type} (cfg : AnalyzerConfig) (pre : R → Frame)
    (total : Int) (frames : List R)
    (hflag : (framePairs (analyzedFrames cfg pre frames)).all
      (fun pr => motionFlag cfg pr.1 pr.2) = true)
    (h2 : 2 ≤ (processVideo cfg pre total frames).frames_analyzed) :
    (processVideo cfg pre total frames).motion_detected = true ∧
    (processVideo cfg pre total frames).motion_percentage =
      (((processVideo cfg pre total frames).frames_analyzed : ℚ) - 1) /
        ((processVideo cfg pre total frames).frames_analyzed : ℚ) * 100 := by
  have hfa := processVideo_frames_analyzed cfg pre total frames
  have hn : 2 ≤ (analyzedFrames cfg pre frames).length := by rw [← hfa]; exact h2
  have hmc : motionCount cfg (analyzedFrames cfg pre frames) =
      (analyzedFrames cfg pre frames).length - 1 := by
    rcases hA : analyzedFrames cfg pre frames with _ | ⟨p, rest⟩
    · rw [hA] at hn; simp at hn
    · rw [motionCount, List.length_cons, Nat.add_sub_cancel]
      apply motionCountFrom_all_flagged
      intro pr hpr
      rw [List.all_eq_true, hA] at hflag
      exact hflag pr hpr
  have hnq : (2 : ℚ) ≤ ((analyzedFrames cfg pre frames).length : ℚ) := by exact_mod_cast hn
  have hpos : (0 : ℚ) < ((analyzedFrames cfg pre frames).length : ℚ) := by linarith
  have hmp : (processVideo cfg pre total frames).motion_percentage =
      (((analyzedFrames cfg pre frames).length : ℚ) - 1) /
        ((analyzedFrames cfg pre frames).length : ℚ) * 100 := by
    rw [processVideo_motion_percentage, if_pos (by omega : 0 < (analyzedFrames cfg pre frames).length),
      hmc, Nat.cast_sub (by omega : 1 ≤ (analyzedFrames cfg pre frames).length)]
    norm_num
  refine ⟨?_, ?_⟩
  · rw [processVideo_motion_detected, hmp, decide_eq_true_iff]
    rw [div_mul_eq_mul_div, lt_div_iff₀ hpos]
    linarith
  · rw [hmp, hfa]

/-- Witness for C3 amended: three frames alternating black/white at stride 1;
both comparisons are flagged, and the run reports
`motion_detected = True` with `motion_percentage = (3 - 1) / 3 * 100`. -/
theorem c3_all_motion_amended_witness :
    ((framePairs (analyzedFrames cfgStride1 id [frameA, frameB, frameA])).all
      (fun pr => motionFlag cfgStride1 pr.1 pr.2) = true ∧
    2 ≤ (processVideo cfgStride1 id 3 [frameA, frameB, frameA]).frames_analyzed) ∧
    ((processVideo cfgStride1 id 3 [frameA, frameB, frameA]).motion_detected = true ∧
    (processVideo cfgStride1 id 3 [frameA, frameB, frameA]).motion_percentage =
      (((processVideo cfgStride1 id 3 [frameA, frameB, frameA]).frames_analyzed : ℚ) - 1) /
        ((processVideo cfgStride1 id 3 [frameA, frameB, frameA]).frames_analyzed : ℚ) * 100) := by
  constructor
  · constructor
    · with_unfolding_all decide
    · with_unfolding_all decide
  · exact c3_all_motion_amended cfgStride1 id 3 [frameA, frameB, frameA]
      (by with_unfolding_all decide) (by with_unfolding_all decide)

/-- C4 counterexample: a stream that reads one frame successfully, then fails
mid-stream (a `ret == False` before exhaustion, with a further frame behind
it).  `analyze` returns a successful result computed from the single frame
read so far — no distinguishable error is surfaced. -/
theorem c4_midstream_failure_counterexample :
    analyze cfgStride1 id true 3 [some frameA, none, some frameB] none 0 =
      AnalyzeOutcome.ok
        { motion_detected := false, frames_analyzed := 1, processing_time := 0,
          total_frames := 3, motion_percentage := 0, avg_motion_intensity := 0 } := by
  with_unfolding_all decide

/-- C4 amended: a failed mid-stream read is treated exactly like
end-of-stream: the run is indistinguishable from a run over the truncated
video, returning a successful result from the frames read before the
failure. -/
theorem c4_midstream_failure_amended {R : Type} (cfg : AnalyzerConfig) (pre : R → Frame)
    (total : Int) (good : List R) (rest : List (Option R)) (elapsed : ℚ) :
    analyze cfg pre true total (good.map some ++ none :: rest) none elapsed =
      analyze cfg pre true total (good.map some) none elapsed := by
  rw [analyze_ok, analyze_ok, readFrames_stops_at_none, readFrames_map_some]

/-- C5: `avg_motion_intensity` is the arithmetic mean of the per-comparison
intensities (mean absolute pre-binarization difference over 255), taken only
over motion-flagged comparisons, is 0 when none was flagged, and lies in
`[0, 1]` (using that preprocessed pixels are uint8, i.e. at most 255). -/
theorem c5_avg_intensity {R : Type} (cfg : AnalyzerConfig) (pre : R → Frame)
    (total : Int) (frames : List R)
    (hb : (analyzedFrames cfg pre frames).all
      (fun f => f.all (fun row => row.all (fun x => decide (x ≤ 255)))) = true) :
    (processVideo cfg pre total frames).avg_motion_intensity =
      (if 0 < motionCount cfg (analyzedFrames cfg pre frames) then
        intensitySum cfg (analyzedFrames cfg pre frames) /
          (motionCount cfg (analyzedFrames cfg pre frames) : ℚ)
      else 0) ∧
    0 ≤ (processVideo cfg pre total frames).avg_motion_intensity ∧
    (processVideo cfg pre total frames).avg_motion_intensity ≤ 1 := by
  have hball : ∀ f ∈ analyzedFrames cfg pre frames, pixelsLE 255 f := by
    intro f hf
    rw [List.all_eq_true] at hb
    have := hb f hf
    rw [List.all_eq_true] at this
    intro row hrow x hx
    have hr := this row hrow
    rw [List.all_eq_true] at hr
    simpa using hr x hx
  obtain ⟨hnn, hub⟩ := intensitySum_bounds cfg (analyzedFrames cfg pre frames) hball
  have havg := processVideo_avg_intensity cfg pre total frames
  refine ⟨havg, ?_, ?_⟩
  · rw [havg]
    split
    · exact div_nonneg hnn (Nat.cast_nonneg _)
    · exact le_refl 0
  · rw [havg]
    split
    · rename_i hpos
      have hposq : (0 : ℚ) < (motionCount cfg (analyzedFrames cfg pre frames) : ℚ) := by
        exact_mod_cast hpos
      rw [div_le_one hposq]
      exact hub
    · norm_num

/-- Witness for C5 at a concrete stride-1 two-frame run: one flagged
comparison of intensity 1, average 1, inside `[0, 1]`. -/
theorem c5_avg_intensity_witness :
    ((analyzedFrames cfgStride1 id [frameA, frameB]).all
      (fun f => f.all (fun row => row.all (fun x => decide (x ≤ 255)))) = true) ∧
    ((processVideo cfgStride1 id 2 [frameA, frameB]).avg_motion_intensity =
      (if 0 < motionCount cfgStride1 (analyzedFrames cfgStride1 id [frameA, frameB]) then
        intensitySum cfgStride1 (analyzedFrames cfgStride1 id [frameA, frameB]) /
          (motionCount cfgStride1 (analyzedFrames cfgStride1 id [frameA, frameB]) : ℚ)
      else 0) ∧
    0 ≤ (processVideo cfgStride1 id 2 [frameA, frameB]).avg_motion_intensity ∧
    (processVideo cfgStride1 id 2 [frameA, frameB]).avg_motion_intensity ≤ 1) := by
  constructor
  · with_unfolding_all decide
  · exact c5_avg_intensity cfgStride1 id 2 [frameA, frameB] (by with_unfolding_all decide)

/-- C6: a fully static video (every decoded frame the same) yields
`motion_detected = False` and `motion_percentage = 0` for any threshold in
`(0, 1)`: every pairwise difference is all-zero and stays all-zero through
binarization and dilation. -/
theorem c6_static_video {R : Type} (cfg : AnalyzerConfig) (pre : R → Frame)
    (raw : R) (n : Nat) (total : Int)
    (h1 : 0 < cfg.motion_threshold) (_h2 : cfg.motion_threshold < 1) :
    (processVideo cfg pre total (List.replicate n raw)).motion_detected = false ∧
    (processVideo cfg pre total (List.replicate n raw)).motion_percentage = 0 := by
  have hconst : ∀ x ∈ analyzedFrames cfg pre (List.replicate n raw), x = pre raw := by
    intro x hx
    rcases List.mem_map.1 hx with ⟨y, hy, rfl⟩
    have hyr : y = raw :=
      selectIdx_all_eq cfg.frame_sample_rate raw (List.replicate n raw) 0
        (fun z hz => List.eq_of_mem_replicate hz) y hy
    rw [hyr]
  have hmc : motionCount cfg (analyzedFrames cfg pre (List.replicate n raw)) = 0 :=
    motionCount_const cfg h1.le (pre raw) _ hconst
  have hmp : (processVideo cfg pre total (List.replicate n raw)).motion_percentage = 0 := by
    rw [processVideo_motion_percentage, hmc]
    split <;> norm_num
  refine ⟨?_, hmp⟩
  rw [processVideo_motion_detected, hmp]
  norm_num

/-- Witness for C6: the default threshold `0.02` lies in `(0, 1)`, and a
three-fold repetition of one frame at stride 1 reports no motion. -/
theorem c6_static_video_witness :
    (0 < cfgStride1.motion_threshold ∧ cfgStride1.motion_threshold < 1) ∧
    ((processVideo cfgStride1 id 3 (List.replicate 3 frameB)).motion_detected = false ∧
    (processVideo cfgStride1 id 3 (List.replicate 3 frameB)).motion_percentage = 0) := by
  constructor
  · constructor
    · with_unfolding_all decide
    · with_unfolding_all decide
  · exact c6_static_video cfgStride1 id frameB 3 3
      (by with_unfolding_all decide) (by with_unfolding_all decide)

/-- C7 counterexample: two runs of `analyze` on the same opened source, same
frames, same configuration — only the elapsed wall-clock time differs (as it
does between any two real runs) — produce results that are not bit-identical:
`processing_time` is `time.time() - start_time`, stored inside the result. -/
theorem c7_determinism_counterexample :
    analyze cfgStride1 id true 1 [some frameA] none 1 ≠
      analyze cfgStride1 id true 1 [some frameA] none 2 := by
  with_unfolding_all decide

/-- C7 amended: `analyze` is deterministic in every field except
`processing_time`: for a fixed source, the outcome with the time field
erased does not depend on the measured elapsed time (no hidden randomness
anywhere else). -/
theorem c7_determinism_amended {R : Type} (cfg : AnalyzerConfig) (pre : R → Frame)
    (opened : Bool) (total : Int) (reads : List (Option R)) (raised : Option String)
    (t1 t2 : ℚ) :
    eraseTime (analyze cfg pre opened total reads raised t1) =
      eraseTime (analyze cfg pre opened total reads raised t2) := by
  cases opened with
  | false => rfl
  | true =>
      cases raised with
      | some e => rfl
      | none => rw [analyze_ok, analyze_ok, eraseTime, eraseTime]

/-- C8 counterexample: constructing an analyzer with the invalid stride `-1`
is not rejected — `__init__` performs no validation and stores `-1` as-is
(and a subsequent `analyze` runs with it). -/
theorem c8_validation_counterexample :
    mkVideoAnalyzer (some (-1)) none none none =
      { frame_sample_rate := -1, motion_threshold := 2 / 100,
        processing_width := 640, processing_height := 480 } := by
  with_unfolding_all decide

/-- C8 amended: construction never validates: any nonzero stride — valid or
not — is stored unchanged, a falsy (`0`/`None`) argument silently falls back
to the default, and `analyze` then runs to a successful result with whatever
configuration was stored, so misconfiguration is observable only at run
time. -/
theorem c8_validation_amended (v : Int) (hv : v ≠ 0) (mt : Option ℚ)
    (pw ph : Option Int) (total : Int) (frames : List Frame) (elapsed : ℚ) :
    (mkVideoAnalyzer (some v) mt pw ph).frame_sample_rate = v ∧
    (mkVideoAnalyzer (some 0) mt pw ph).frame_sample_rate = 5 ∧
    analyze (mkVideoAnalyzer (some v) mt pw ph) id true total (frames.map some) none elapsed =
      AnalyzeOutcome.ok
        { processVideo (mkVideoAnalyzer (some v) mt pw ph) id total frames with
            processing_time := elapsed } := by
  refine ⟨?_, rfl, ?_⟩
  · simp [mkVideoAnalyzer, pyOrInt, hv]
  · rw [analyze_ok, readFrames_map_some]

/-- Witness for C8 amended at the concrete invalid stride `-1`. -/
theorem c8_validation_amended_witness :
    (-1 : Int) ≠ 0 ∧
    ((mkVideoAnalyzer (some (-1)) none none none).frame_sample_rate = -1 ∧
    (mkVideoAnalyzer (some 0) none none none).frame_sample_rate = 5 ∧
    analyze (mkVideoAnalyzer (some (-1)) none none none) id true 1 ([frameA].map some) none 0 =
      AnalyzeOutcome.ok
        { processVideo (mkVideoAnalyzer (some (-1)) none none none) id 1 [frameA] with
            processing_time := 0 }) := by
  constructor
  · with_unfolding_all decide
  · exact c8_validation_amended (-1) (by with_unfolding_all decide) none none none 1 [frameA] 0

/-- C9 counterexample: the metadata frame count (`CAP_PROP_FRAME_COUNT`) is
independent of the decoded stream; when the container reports `0` but one
frame decodes at stride 1, the result has `frames_analyzed = 1 >
total_frames = 0`. -/
theorem c9_frames_bound_counterexample :
    ¬ (((processVideo cfgStride1 id 0 [frameA]).frames_analyzed : Int) ≤
        (processVideo cfgStride1 id 0 [frameA]).total_frames) := by
  with_unfolding_all decide

/-- C9 amended: `frames_analyzed` never exceeds the number of frames actually
decoded, so whenever the container metadata is at least the decoded count
(the accurate-metadata case), `frames_analyzed ≤ total_frames` holds. -/
theorem c9_frames_bound_amended {R : Type} (cfg : AnalyzerConfig) (pre : R → Frame)
    (total : Int) (frames : List R) (h : (frames.length : Int) ≤ total) :
    ((processVideo cfg pre total frames).frames_analyzed : Int) ≤
      (processVideo cfg pre total frames).total_frames := by
  have h1 : (processVideo cfg pre total frames).frames_analyzed ≤ frames.length := by
    rw [processVideo_frames_analyzed, analyzedFrames, List.length_map]
    exact selectIdx_length_le cfg.frame_sample_rate frames 0
  rw [processVideo_total_frames]
  have h2 : ((processVideo cfg pre total frames).frames_analyzed : Int) ≤
      (frames.length : Int) := by exact_mod_cast h1
  exact h2.trans h

/-- Witness for C9 amended: one decoded frame, metadata reporting 5. -/
theorem c9_frames_bound_amended_witness :
    (([frameA] : List Frame).length : Int) ≤ 5 ∧
    ((processVideo cfgStride1 id 5 [frameA]).frames_analyzed : Int) ≤
      (processVideo cfgStride1 id 5 [frameA]).total_frames := by
  constructor
  · with_unfolding_all decide
  · exact c9_frames_bound_amended cfgStride1 id 5 [frameA] (by with_unfolding_all decide)

/-- C10: once the source is opened, an exception `e` raised during frame
processing escapes `analyze` only as
`VideoProcessingError("Failed to process video: " + e)`, and
`InvalidVideoError` escapes only when the source failed to open — so a
caller never observes the underlying exception and never sees any error kind
other than these two. -/
theorem c10_error_channel {R : Type} (cfg : AnalyzerConfig) (pre : R → Frame)
    (total : Int) (reads : List (Option R)) (elapsed : ℚ) (e msg : String)
    (opened : Bool) (raised : Option String) :
    (analyze cfg pre true total reads (some e) elapsed =
      AnalyzeOutcome.videoProcessingError ("Failed to process video: " ++ e)) ∧
    (analyze cfg pre opened total reads raised elapsed =
        AnalyzeOutcome.invalidVideoError msg → opened = false) := by
  constructor
  · rfl
  · intro h
    cases opened with
    | false => rfl
    | true =>
        cases raised with
        | some x => simp [analyze] at h
        | none => rw [analyze_ok] at h; exact absurd h (by simp)

/-- Witness for C10: the concrete exception text `"boom"` is wrapped. -/
theorem c10_error_channel_witness :
    analyze cfgStride1 id true 0 ([] : List (Option Frame)) (some "boom") 0 =
      AnalyzeOutcome.videoProcessingError ("Failed to process video: " ++ "boom") :=
  (c10_error_channel cfgStride1 id 0 ([] : List (Option Frame)) 0 "boom" "x" true none).1

end VisionGuard
